import Mathlib

/-!
Shallow embedding of the Tea Haven order-checkout component: `OrdersService`
(orders.service.ts) and `EmailService` (email.service.ts), over the Prisma
schema (schema.sql).

Conventions of the embedding:
* `DECIMAL(10,2)` monetary columns are represented exactly as an integer count
  of hundredths; `Prisma.Decimal` addition and multiplication by an integer
  quantity are exact on this representation.
* JavaScript `Map` insertion-order semantics (`productQuantities`,
  `sellerGroups`) are modelled by association lists updated in place.
* The database is a `Store` value threaded through the operations;
  `prisma.$transaction` rollback is modelled by returning the unchanged store
  on every in-transaction error.
* JavaScript `Number()` applied to a `Prisma.Decimal` is modelled by exact
  round-to-nearest-even conversion to an IEEE-754 binary64 value (represented
  as the exact rational it denotes).
* The nodemailer transporter is a parameter: `none` when credentials are not
  configured (`send` only logs and cannot fail), `some t` with `t m` telling
  whether `sendMail` for message `m` resolves or rejects.
-/

inductive Role
  | CUSTOMER
  | SELLER
deriving DecidableEq, Repr

inductive OrderStatus
  | PENDING
  | PROCESSING
  | SHIPPED
  | DELIVERED
deriving DecidableEq, Repr

/-- A `DECIMAL(10,2)` value, as an exact count of hundredths. -/
abbrev Decimal := Int

structure User where
  id : Nat
  email : String
  fullName : String
  role : Role
deriving DecidableEq

structure Product where
  id : Nat
  name : String
  category : String
  price : Decimal
  stock : Int
  isActive : Bool
  sellerId : Nat
  seller : User
deriving DecidableEq

/-- One entry of `CreateOrderDto.items` (create-order.dto.ts). -/
structure OrderItemDto where
  productId : Nat
  quantity : Nat
deriving DecidableEq

structure CreateOrderDto where
  shippingAddress : String
  items : List OrderItemDto
deriving DecidableEq

/-- An `order_items` row, hydrated with its product and seller
(`include: { product: { include: { seller: true } } }`). -/
structure OrderItemRec where
  id : Nat
  quantity : Nat
  unitPrice : Decimal
  product : Product
deriving DecidableEq

/-- An `orders` row, hydrated with customer and items. -/
structure OrderRec where
  id : Nat
  customerId : Nat
  customer : User
  status : OrderStatus
  shippingAddress : String
  totalAmount : Decimal
  items : List OrderItemRec
deriving DecidableEq

/-- The relational store touched by the orders component, plus the
auto-increment counters for the ids handed out by `SERIAL` columns. -/
structure Store where
  users : List User
  products : List Product
  orders : List OrderRec
  nextOrderId : Nat
  nextItemId : Nat
deriving DecidableEq

/-- Errors thrown by the component: `ForbiddenException`, `NotFoundException`,
and the rejection that escapes `create` when an awaited `sendMail` fails. -/
inductive Err
  | forbidden (msg : String)
  | notFound (msg : String)
  | emailDispatchFailed
deriving DecidableEq

/-! ### JS `Number()` on a `Prisma.Decimal`

`serializeOrder` and `buildOrderSummary` expose `Number(order.totalAmount)`
and `Number(item.unitPrice)`.  `Number()` yields the IEEE-754 binary64 value
nearest to the decimal (ties to even); we compute that dyadic rational
exactly.  All arithmetic below is on `Nat`, so concrete instances evaluate by
kernel reduction. -/

/-- Fuel-driven `⌊log₂ n⌋` (0 at 0 and 1). -/
def log2Aux (fuel n : Nat) : Nat :=
  match fuel with
  | 0 => 0
  | fuel + 1 => if n < 2 then 0 else 1 + log2Aux fuel (n / 2)

def natLog2 (n : Nat) : Nat := log2Aux n n

/-- Fuel-driven `⌈log₂ n⌉` (0 at 0 and 1). -/
def clog2Aux (fuel n : Nat) : Nat :=
  match fuel with
  | 0 => 0
  | fuel + 1 => if n ≤ 1 then 0 else 1 + clog2Aux fuel ((n + 1) / 2)

def natClog2 (n : Nat) : Nat := clog2Aux n n

/-- Round `a / b` to the nearest integer, ties to even (`b > 0`). -/
def halfEvenDiv (a b : Nat) : Nat :=
  let q := a / b
  let r := a % b
  if 2 * r < b then q
  else if b < 2 * r then q + 1
  else if q % 2 = 0 then q else q + 1

/-- `⌊log₂ (num / den)⌋` for positive `num`, `den`. -/
def floorLog2 (num den : Nat) : Int :=
  if den ≤ num then (natLog2 (num / den) : Int)
  else -(natClog2 ((den + num - 1) / num) : Int)

/-- Modelled from the JS builtin used by the source: `Number()` applied to a
`DECIMAL(10,2)` value `c` (i.e. the rational `c / 100`), returning the nearest
binary64 value as an exact rational.  The mantissa is the half-even rounding
of `c/100 · 2^(52-e)` with `e = ⌊log₂ |c/100|⌋`. -/
def toNumber (c : Decimal) : ℚ :=
  if c = 0 then 0
  else
    let n := c.natAbs
    let e := floorLog2 n 100
    let k := 52 - e
    let m : Nat :=
      if 0 ≤ k then halfEvenDiv (n * 2 ^ k.toNat) 100
      else halfEvenDiv n (100 * 2 ^ (-k).toNat)
    let mag : ℚ :=
      if 0 ≤ k then (m : ℚ) / 2 ^ k.toNat
      else (m : ℚ) * 2 ^ (-k).toNat
    if c < 0 then -mag else mag

/-- The exact rational value of a `DECIMAL(10,2)` column. -/
def decimalVal (c : Decimal) : ℚ := (c : ℚ) / 100

/-! ### Serialization (`OrdersService.serializeOrder`) -/

structure SerializedProduct where
  id : Nat
  name : String
  category : String
  sellerId : Nat
  sellerName : String
deriving DecidableEq

structure SerializedOrderItem where
  id : Nat
  quantity : Nat
  unitPrice : ℚ
  product : SerializedProduct
deriving DecidableEq

structure SerializedOrder where
  id : Nat
  status : OrderStatus
  shippingAddress : String
  totalAmount : ℚ
  items : List SerializedOrderItem
deriving DecidableEq

def serializeOrder (o : OrderRec) : SerializedOrder :=
  { id := o.id
    status := o.status
    shippingAddress := o.shippingAddress
    totalAmount := toNumber o.totalAmount
    items := o.items.map fun it =>
      { id := it.id
        quantity := it.quantity
        unitPrice := toNumber it.unitPrice
        product :=
          { id := it.product.id
            name := it.product.name
            category := it.product.category
            sellerId := it.product.sellerId
            sellerName := it.product.seller.fullName } } }

/-! ### `EmailService` -/

structure OrderItemSummary where
  name : String
  quantity : Nat
  unitPrice : ℚ
deriving DecidableEq

structure SummaryItem where
  sellerEmail : String
  sellerName : String
  summary : OrderItemSummary
deriving DecidableEq

structure OrderSummary where
  id : Nat
  status : OrderStatus
  totalAmount : ℚ
  shippingAddress : String
  customerEmail : String
  customerFullName : String
  items : List SummaryItem
deriving DecidableEq

/-- `EmailService.buildOrderSummary`. -/
def buildOrderSummary (o : OrderRec) : OrderSummary :=
  { id := o.id
    status := o.status
    totalAmount := toNumber o.totalAmount
    shippingAddress := o.shippingAddress
    customerEmail := o.customer.email
    customerFullName := o.customer.fullName
    items := o.items.map fun it =>
      { sellerEmail := it.product.seller.email
        sellerName := it.product.seller.fullName
        summary :=
          { name := it.product.name
            quantity := it.quantity
            unitPrice := toNumber it.unitPrice } } }

/-- An outbound mail (`toAddr` is the source's `to` field); the rendered body
text is presentation-only and is summarized by the item summaries it lists. -/
structure EmailMsg where
  toAddr : String
  subject : String
  items : List OrderItemSummary
deriving DecidableEq

/-- Whether `transporter.sendMail` resolves for a given message. -/
abbrev Transport := EmailMsg → Bool

/-- `EmailService.send`: with no configured transporter the message is only
logged (never fails); otherwise the transporter decides. -/
def sendMail (transporter : Option Transport) (m : EmailMsg) : Bool :=
  match transporter with
  | none => true
  | some t => t m

/-- `EmailService.sendOrderConfirmation`: one mail to the customer listing
every item of the order. -/
def orderConfirmationMail (o : OrderSummary) : EmailMsg :=
  { toAddr := o.customerEmail
    subject := "Tea Haven Order Confirmation #" ++ toString o.id
    items := o.items.map fun it => it.summary }

/-- One step of the `sellerGroups` map construction in
`EmailService.sendSellerNotification`: group by seller email, keeping the name
seen first and pushing this item's summary onto the group. -/
def sellerGroupStep (acc : List (String × String × List OrderItemSummary))
    (it : SummaryItem) : List (String × String × List OrderItemSummary) :=
  if acc.any fun g => g.1 = it.sellerEmail then
    acc.map fun g =>
      if g.1 = it.sellerEmail then (g.1, g.2.1, g.2.2 ++ [it.summary]) else g
  else acc ++ [(it.sellerEmail, it.sellerName, [it.summary])]

def sellerGroups (items : List SummaryItem) :
    List (String × String × List OrderItemSummary) :=
  items.foldl sellerGroupStep []

/-- `EmailService.sendSellerNotification`: one mail per seller group. -/
def sellerNotificationMails (o : OrderSummary) : List EmailMsg :=
  (sellerGroups o.items).map fun g =>
    { toAddr := g.1
      subject := "New order #" ++ toString o.id ++ " from " ++ o.customerFullName
      items := g.2.2 }

/-- The two awaited dispatches in `OrdersService.create`
(`Promise.all([sendOrderConfirmation, sendSellerNotification])`); the
combined promise resolves iff every underlying `sendMail` resolves. -/
def dispatchAll (transporter : Option Transport) (o : OrderSummary) : Bool :=
  (orderConfirmationMail o :: sellerNotificationMails o).all (sendMail transporter)

/-! ### `OrdersService.create` -/

/-- One step of the `productQuantities` map construction: sum the quantity
into the entry for this product id, or append a fresh entry. -/
def aggStep (acc : List (Nat × Nat)) (it : OrderItemDto) : List (Nat × Nat) :=
  if acc.any fun e => e.1 = it.productId then
    acc.map fun e =>
      if e.1 = it.productId then (e.1, e.2 + it.quantity) else e
  else acc ++ [(it.productId, it.quantity)]

/-- The `productQuantities` map: aggregated quantity per product id, in first
occurrence order. -/
def aggregateItems (items : List OrderItemDto) : List (Nat × Nat) :=
  items.foldl aggStep []

/-- `productMap.get` (first row with the given id). -/
def lookupProduct (products : List Product) (pid : Nat) : Option Product :=
  products.find? fun p => p.id = pid

def lookupUser (users : List User) (uid : Nat) : Option User :=
  users.find? fun u => u.id = uid

def insufficientStockMsg (name : String) : String :=
  "Insufficient stock for " ++ name

/-- The stock-availability loop over the aggregated quantities. -/
def checkStock (products : List Product) : List (Nat × Nat) → Except Err Unit
  | [] => .ok ()
  | (pid, q) :: rest =>
    match lookupProduct products pid with
    | none => .error (.notFound ("Product " ++ toString pid ++ " not found"))
    | some p =>
      if p.stock < (q : Int) then .error (.forbidden (insufficientStockMsg p.name))
      else checkStock products rest

/-- Stand-in for the value behind the source's non-null assertion
`productMap.get(item.productId)!`; unreachable once `checkStock` passed. -/
def defaultProduct : Product :=
  { id := 0, name := "", category := "", price := 0, stock := 0
    isActive := false, sellerId := 0
    seller := { id := 0, email := "", fullName := "", role := .SELLER } }

def defaultUser : User :=
  { id := 0, email := "", fullName := "", role := .CUSTOMER }

/-- The `createItems` list: one `OrderItem` per original (non-aggregated) dto
item, freezing `unitPrice := product.price`; ids are handed out serially. -/
def buildItems (products : List Product) :
    List OrderItemDto → Nat → List OrderItemRec
  | [], _ => []
  | it :: rest, nextId =>
    let product := (lookupProduct products it.productId).getD defaultProduct
    { id := nextId
      quantity := it.quantity
      unitPrice := product.price
      product := product } :: buildItems products rest (nextId + 1)

/-- The running `total = total.add(unitPrice.mul(item.quantity))`, exact on
hundredths. -/
def orderTotal (products : List Product) (items : List OrderItemDto) : Decimal :=
  items.foldl
    (fun total it =>
      total + ((lookupProduct products it.productId).getD defaultProduct).price
        * (it.quantity : Int))
    0

/-- The `tx.product.update` loop: for each aggregated pair, the row with that
id gets `stock := snapshot.stock - quantity` (the stock read by the fetch) and
`isActive := remaining > 0`. -/
def applyStockUpdates (fetched : List Product) (agg : List (Nat × Nat))
    (ps : List Product) : List Product :=
  ps.map fun p =>
    match agg.find? fun e => e.1 = p.id with
    | none => p
    | some e =>
      match lookupProduct fetched p.id with
      | none => p
      | some snapshot =>
        let remaining := snapshot.stock - (e.2 : Int)
        { p with stock := remaining, isActive := decide (remaining > 0) }

/-- The availability part of the transaction: aggregate, fetch active
products, length check, stock check; returns the fetched products. -/
def stockCheckPhase (st : Store) (items : List OrderItemDto) :
    Except Err (List Product) :=
  let agg := aggregateItems items
  let productIds := agg.map fun e => e.1
  let products := st.products.filter fun p => productIds.contains p.id && p.isActive
  if products.length ≠ productIds.length then
    .error (.notFound "One or more products were not found or inactive")
  else
    match checkStock products agg with
    | .error e => .error e
    | .ok _ => .ok products

/-- The `tx.order.create` row: `PENDING` status, frozen line items, exact
decimal total. -/
def committedOrder (st : Store) (customerId : Nat) (dto : CreateOrderDto)
    (products : List Product) : OrderRec :=
  { id := st.nextOrderId
    customerId := customerId
    customer := (lookupUser st.users customerId).getD defaultUser
    status := .PENDING
    shippingAddress := dto.shippingAddress
    totalAmount := orderTotal products dto.items
    items := buildItems products dto.items st.nextItemId }

def createTxn (st : Store) (customerId : Nat) (dto : CreateOrderDto) :
    Except Err (Store × OrderRec) :=
  match stockCheckPhase st dto.items with
  | .error e => .error e
  | .ok products =>
      let order := committedOrder st customerId dto products
      let st' : Store :=
        { st with
          products := applyStockUpdates products (aggregateItems dto.items) st.products
          orders := st.orders ++ [order]
          nextOrderId := st.nextOrderId + 1
          nextItemId := st.nextItemId + dto.items.length }
      .ok (st', order)

/-- `OrdersService.create`: role guard, transaction, then the awaited
notification dispatch, then serialization.  The returned store is the
post-commit store even when dispatch fails, because the transaction has
already committed when the mails are awaited. -/
def create (st : Store) (customerId : Nat) (role : Role) (dto : CreateOrderDto)
    (transporter : Option Transport) : Store × Except Err SerializedOrder :=
  if role ≠ Role.CUSTOMER then
    (st, .error (.forbidden "Customer role required"))
  else
    match createTxn st customerId dto with
    | .error e => (st, .error e)
    | .ok (st', order) =>
      if dispatchAll transporter (buildOrderSummary order) then
        (st', .ok (serializeOrder order))
      else
        (st', .error .emailDispatchFailed)

/-- `OrdersService.updateStatus`: seller guard, order lookup, ownership check
(`some` item's product belongs to the seller), then an unconditional status
write with no transition validation. -/
def updateStatus (st : Store) (orderId sellerId : Nat) (role : Role)
    (newStatus : OrderStatus) : Store × Except Err SerializedOrder :=
  if role ≠ Role.SELLER then
    (st, .error (.forbidden "Seller role required"))
  else
    match st.orders.find? fun o => o.id = orderId with
    | none => (st, .error (.notFound "Order not found"))
    | some order =>
      if order.items.any fun it => it.product.sellerId = sellerId then
        ({ st with
            orders := st.orders.map fun o =>
              if o.id = orderId then { o with status := newStatus } else o },
         .ok (serializeOrder { order with status := newStatus }))
      else
        (st, .error (.forbidden "You are not allowed to update this order"))

/-! ### Derived notions used in the statements -/

/-- Lookup of the aggregated quantity recorded for a product id. -/
def aggLookup (agg : List (Nat × Nat)) (pid : Nat) : Option Nat :=
  (agg.find? fun e => e.1 = pid).map fun e => e.2

/-- Total quantity requested for one product across all dto items. -/
def qtySum (items : List OrderItemDto) (pid : Nat) : Nat :=
  ((items.filter fun it => it.productId = pid).map fun it => it.quantity).sum

/-! ### Concrete fixtures (used by the witnesses) -/

def seller1 : User :=
  { id := 1, email := "seller1@teahaven.local", fullName := "Seller One", role := .SELLER }

def seller2 : User :=
  { id := 2, email := "seller2@teahaven.local", fullName := "Seller Two", role := .SELLER }

def customer1 : User :=
  { id := 10, email := "customer@teahaven.local", fullName := "Cust Omer", role := .CUSTOMER }

def teaA : Product :=
  { id := 101, name := "Green Tea", category := "tea", price := 1250, stock := 50
    isActive := true, sellerId := 1, seller := seller1 }

def teaB : Product :=
  { id := 102, name := "Black Tea", category := "tea", price := 995, stock := 5
    isActive := true, sellerId := 1, seller := seller1 }

def teaC : Product :=
  { id := 103, name := "Oolong Tea", category := "tea", price := 2000, stock := 3
    isActive := true, sellerId := 2, seller := seller2 }

def store1 : Store :=
  { users := [seller1, seller2, customer1], products := [teaA, teaB, teaC]
    orders := [], nextOrderId := 1, nextItemId := 1 }

/-- The spec's worked example: quantity 2 of the 12.50 product. -/
def dto1 : CreateOrderDto :=
  { shippingAddress := "12 Tea Street", items := [⟨101, 2⟩] }

/-- A two-line order touching both sellers. -/
def dto2 : CreateOrderDto :=
  { shippingAddress := "12 Tea Street", items := [⟨101, 2⟩, ⟨103, 1⟩] }

/-- Duplicate product-id lines whose aggregate (6) exceeds teaB's stock (5). -/
def dtoSplit : CreateOrderDto :=
  { shippingAddress := "12 Tea Street", items := [⟨102, 3⟩, ⟨102, 3⟩] }

/-- References a product id that does not exist in `store1`. -/
def dtoMissing : CreateOrderDto :=
  { shippingAddress := "12 Tea Street", items := [⟨999, 1⟩] }

/-- An order held by seller 1, used by the `updateStatus` claims. -/
def ordX : OrderRec :=
  { id := 7, customerId := 10, customer := customer1, status := .PENDING
    shippingAddress := "12 Tea Street", totalAmount := 1250
    items := [{ id := 1, quantity := 1, unitPrice := 1250, product := teaA }] }

def storeO : Store :=
  { users := [seller1, seller2, customer1], products := [teaA, teaB, teaC]
    orders := [ordX], nextOrderId := 8, nextItemId := 2 }

/-- The order row committed by `create store1 10 CUSTOMER dto1`. -/
def ord1 : OrderRec :=
  { id := 1, customerId := 10, customer := customer1, status := .PENDING
    shippingAddress := "12 Tea Street", totalAmount := 2500
    items := [{ id := 1, quantity := 2, unitPrice := 1250, product := teaA }] }

/-- The store after that commit: teaA stock 50-2, the order appended. -/
def store1c : Store :=
  { users := [seller1, seller2, customer1]
    products := [{ teaA with stock := 48, isActive := true }, teaB, teaC]
    orders := [ord1], nextOrderId := 2, nextItemId := 2 }

/-- An order with two line items from the same seller. -/
def ordTwo : OrderRec :=
  { id := 2, customerId := 10, customer := customer1, status := .PENDING
    shippingAddress := "12 Tea Street", totalAmount := 2245
    items := [{ id := 2, quantity := 1, unitPrice := 1250, product := teaA },
              { id := 3, quantity := 1, unitPrice := 995, product := teaB }] }

/-! ### Helper lemmas on the aggregation map -/

theorem aggLookup_nil (pid : Nat) : aggLookup [] pid = none := rfl

theorem aggLookup_cons (e : Nat × Nat) (acc : List (Nat × Nat)) (pid : Nat) :
    aggLookup (e :: acc) pid =
      if e.1 = pid then some e.2 else aggLookup acc pid := by
  by_cases h : e.1 = pid
  · rw [if_pos h]
    unfold aggLookup
    rw [List.find?_cons_of_pos _ (by simpa using h)]
    rfl
  · rw [if_neg h]
    unfold aggLookup
    rw [List.find?_cons_of_neg _ (by simpa using h)]

/-- Looking up after the in-place `+ q'` update of the entry keyed `k`. -/
theorem aggLookup_bump (acc : List (Nat × Nat)) (k q' pid : Nat) :
    aggLookup (acc.map fun e => if e.1 = k then (e.1, e.2 + q') else e) pid =
      if k = pid then (aggLookup acc pid).map fun q => q + q'
      else aggLookup acc pid := by
  induction acc with
  | nil => simp [aggLookup_nil]
  | cons e acc ih =>
    simp only [List.map_cons]
    by_cases hek : e.1 = k
    · rw [if_pos hek, aggLookup_cons, aggLookup_cons]
      by_cases hep : e.1 = pid
      · have hkp : k = pid := hek ▸ hep
        simp [hep, hkp]
      · simp only [hep, if_neg hep, if_false, ih]
    · rw [if_neg hek, aggLookup_cons, aggLookup_cons]
      by_cases hep : e.1 = pid
      · have hkp : ¬ k = pid := fun h => hek (h ▸ hep)
        simp [hep, hkp]
      · simp only [if_neg hep, ih]

theorem aggLookup_append_single (acc : List (Nat × Nat)) (k q pid : Nat) :
    aggLookup (acc ++ [(k, q)]) pid =
      match aggLookup acc pid with
      | some r => some r
      | none => if k = pid then some q else none := by
  induction acc with
  | nil => simp [aggLookup_nil, aggLookup_cons]
  | cons e acc ih =>
    rw [List.cons_append, aggLookup_cons, aggLookup_cons]
    by_cases hep : e.1 = pid
    · simp [hep]
    · simp only [if_neg hep, ih]

theorem aggLookup_eq_none_iff (acc : List (Nat × Nat)) (pid : Nat) :
    aggLookup acc pid = none ↔ (acc.any fun e => e.1 = pid) = false := by
  induction acc with
  | nil => simp [aggLookup_nil]
  | cons e acc ih =>
    rw [aggLookup_cons]
    by_cases hep : e.1 = pid <;> simp [hep, ih]

/-- One `productQuantities.set` step: the looked-up total for `pid` gains the
item's quantity when the ids match and is unchanged otherwise. -/
theorem aggStep_lookup (acc : List (Nat × Nat)) (it : OrderItemDto) (pid : Nat) :
    aggLookup (aggStep acc it) pid =
      if it.productId = pid then
        some ((aggLookup acc pid).getD 0 + it.quantity)
      else aggLookup acc pid := by
  unfold aggStep
  by_cases hany : (acc.any fun e => e.1 = it.productId) = true
  · rw [if_pos hany, aggLookup_bump]
    by_cases hip : it.productId = pid
    · rw [if_pos hip, if_pos hip]
      have hne : ¬ aggLookup acc pid = none := by
        rw [aggLookup_eq_none_iff]
        simp only [← hip, hany]
        simp
      obtain ⟨r, hr⟩ := Option.ne_none_iff_exists'.mp hne
      rw [hr]
      simp
    · rw [if_neg hip, if_neg hip]
  · rw [if_neg hany, aggLookup_append_single]
    by_cases hip : it.productId = pid
    · have hnone : aggLookup acc pid = none := by
        rw [aggLookup_eq_none_iff, ← hip]
        exact Bool.eq_false_iff.mpr hany
      rw [hnone]
      simp [hip]
    · by_cases hl : aggLookup acc pid = none
      · rw [hl]
        simp [hip]
      · obtain ⟨r, hr⟩ := Option.ne_none_iff_exists'.mp hl
        rw [hr]
        simp [hip]

theorem qtySum_nil (pid : Nat) : qtySum [] pid = 0 := rfl

theorem qtySum_cons (it : OrderItemDto) (rest : List OrderItemDto) (pid : Nat) :
    qtySum (it :: rest) pid =
      (if it.productId = pid then it.quantity else 0) + qtySum rest pid := by
  unfold qtySum
  rw [List.filter_cons]
  by_cases h : it.productId = pid <;> simp [h]

theorem qtySum_eq_zero_of_not_any (items : List OrderItemDto) (pid : Nat)
    (h : (items.any fun it => it.productId = pid) = false) :
    qtySum items pid = 0 := by
  induction items with
  | nil => rfl
  | cons hd tl ih =>
    simp only [List.any_cons, Bool.or_eq_false_iff] at h
    rw [qtySum_cons, if_neg (by simpa using h.1), ih h.2]

theorem aggLookup_foldl (items : List OrderItemDto) (acc : List (Nat × Nat)) (pid : Nat) :
    aggLookup (items.foldl aggStep acc) pid =
      if (items.any fun it => it.productId = pid) = true then
        some ((aggLookup acc pid).getD 0 + qtySum items pid)
      else aggLookup acc pid := by
  induction items generalizing acc with
  | nil => simp [qtySum_nil]
  | cons hd tl ih =>
    rw [List.foldl_cons, ih, aggStep_lookup, qtySum_cons, List.any_cons]
    by_cases hhd : hd.productId = pid
    · simp only [if_pos hhd, hhd]
      by_cases htl : (tl.any fun it => it.productId = pid) = true
      · simp only [htl, if_pos, decide_True, Bool.true_or, if_true]
        simp [Nat.add_assoc]
      · simp only [htl, decide_True, Bool.true_or, if_true, if_false,
          qtySum_eq_zero_of_not_any tl pid (Bool.eq_false_iff.mpr htl)]
        simp
    · simp [hhd]

/-- The `productQuantities` map records, for every requested product id, the
sum of the quantities of all input lines with that id. -/
theorem aggregateItems_lookup (items : List OrderItemDto) (pid : Nat) :
    aggLookup (aggregateItems items) pid =
      if (items.any fun it => it.productId = pid) = true then
        some (qtySum items pid)
      else none := by
  have h := aggLookup_foldl items [] pid
  simpa [aggregateItems, aggLookup_nil] using h

theorem mem_aggKeys_iff (items : List OrderItemDto) (pid : Nat) :
    pid ∈ (aggregateItems items).map (fun e => e.1) ↔
      pid ∈ items.map fun it => it.productId := by
  constructor
  · intro h
    have hne : ¬ aggLookup (aggregateItems items) pid = none := by
      rw [aggLookup_eq_none_iff]
      intro hfalse
      rw [List.any_eq_false] at hfalse
      obtain ⟨e, he, rfl⟩ := List.mem_map.mp h
      exact (hfalse e he) (by simp)
    rw [aggregateItems_lookup] at hne
    by_cases hany : (items.any fun it => it.productId = pid) = true
    · obtain ⟨it, hit, hp⟩ := List.any_eq_true.mp hany
      exact List.mem_map.mpr ⟨it, hit, by simpa using hp⟩
    · rw [if_neg hany] at hne
      exact absurd rfl hne
  · intro h
    obtain ⟨it, hit, rfl⟩ := List.mem_map.mp h
    have hany : (items.any fun x => x.productId = it.productId) = true :=
      List.any_eq_true.mpr ⟨it, hit, by simp⟩
    have hsome : aggLookup (aggregateItems items) it.productId =
        some (qtySum items it.productId) := by
      rw [aggregateItems_lookup, if_pos hany]
    unfold aggLookup at hsome
    obtain ⟨e, hfe, h2⟩ := Option.map_eq_some'.mp hsome
    exact List.mem_map.mpr
      ⟨e, List.mem_of_find?_eq_some hfe, by simpa using List.find?_some hfe⟩

theorem aggStep_keys (acc : List (Nat × Nat)) (it : OrderItemDto) :
    (aggStep acc it).map (fun e => e.1) =
      if (acc.any fun e => e.1 = it.productId) = true then acc.map fun e => e.1
      else (acc.map fun e => e.1) ++ [it.productId] := by
  unfold aggStep
  by_cases hany : (acc.any fun e => e.1 = it.productId) = true
  · rw [if_pos hany, if_pos hany, List.map_map]
    refine List.map_congr_left fun e _ => ?_
    by_cases he : e.1 = it.productId <;> simp [he]
  · rw [if_neg hany, if_neg hany, List.map_append]
    rfl

theorem aggKeys_nodup_aux (items : List OrderItemDto) (acc : List (Nat × Nat))
    (h : (acc.map fun e => e.1).Nodup) :
    ((items.foldl aggStep acc).map fun e => e.1).Nodup := by
  induction items generalizing acc with
  | nil => simpa
  | cons hd tl ih =>
    rw [List.foldl_cons]
    apply ih
    rw [aggStep_keys]
    by_cases hany : (acc.any fun e => e.1 = hd.productId) = true
    · rwa [if_pos hany]
    · rw [if_neg hany, List.nodup_append]
      refine ⟨h, List.nodup_singleton _, ?_⟩
      intro a ha hb
      rw [List.mem_singleton] at hb
      subst hb
      have hfalse := Bool.not_eq_true _ |>.mp hany
      rw [List.any_eq_false] at hfalse
      obtain ⟨e, he, heq⟩ := List.mem_map.mp ha
      exact (hfalse e he) (by simp [heq])

/-- The aggregated map has one entry per product id. -/
theorem aggKeys_nodup (items : List OrderItemDto) :
    ((aggregateItems items).map fun e => e.1).Nodup :=
  aggKeys_nodup_aux items [] (by simp)

/-- With pairwise-distinct keys, membership determines the `find?` result. -/
theorem find?_agg_of_mem (agg : List (Nat × Nat)) (pid q : Nat)
    (hN : (agg.map fun e => e.1).Nodup) (hmem : (pid, q) ∈ agg) :
    (agg.find? fun e => e.1 = pid) = some (pid, q) := by
  induction agg with
  | nil => cases hmem
  | cons e rest ih =>
    rcases List.mem_cons.mp hmem with heq | hrest
    · rw [← heq]
      rw [List.find?_cons_of_pos _ (by simp)]
    · by_cases hep : e.1 = pid
      · exfalso
        rw [List.map_cons, List.nodup_cons] at hN
        exact hN.1 (by rw [hep]; exact List.mem_map.mpr ⟨(pid, q), hrest, rfl⟩)
      · rw [List.find?_cons_of_neg _ (by simpa using hep)]
        apply ih ?_ hrest
        rw [List.map_cons, List.nodup_cons] at hN
        exact hN.2

/-! ### Helper lemmas on the availability phase -/

theorem stockCheckPhase_ok (st : Store) (items : List OrderItemDto)
    (products : List Product)
    (h : stockCheckPhase st items = .ok products) :
    products = (st.products.filter fun p =>
        (((aggregateItems items).map fun e => e.1).contains p.id && p.isActive)) ∧
    products.length = ((aggregateItems items).map fun e => e.1).length ∧
    checkStock products (aggregateItems items) = .ok () := by
  simp only [stockCheckPhase] at h
  split at h
  · cases h
  · rename_i hcond
    split at h
    · cases h
    · rename_i u heq
      cases h
      exact ⟨rfl, not_ne_iff.mp hcond, by cases u; exact heq⟩

theorem fetched_covers (st : Store) (pids : List Nat)
    (hN : (st.products.map fun p => p.id).Nodup)
    (hpids : pids.Nodup)
    (hlen : (st.products.filter fun p => pids.contains p.id && p.isActive).length = pids.length)
    (pid : Nat) (hpid : pid ∈ pids) :
    ∃ f ∈ st.products.filter (fun p => pids.contains p.id && p.isActive), f.id = pid := by
  have hsub : List.Sublist (st.products.filter fun p => pids.contains p.id && p.isActive)
      st.products :=
    List.filter_sublist _
  have hfN : ((st.products.filter fun p => pids.contains p.id && p.isActive).map
      fun p => p.id).Nodup :=
    List.Nodup.sublist (hsub.map _) hN
  have hids_sub : ∀ x ∈ (st.products.filter fun p => pids.contains p.id && p.isActive).map
      (fun p => p.id), x ∈ pids := by
    intro x hx
    obtain ⟨f, hfmem, rfl⟩ := List.mem_map.mp hx
    have hm := List.mem_filter.mp hfmem
    have hcontains := ((Bool.and_eq_true _ _).mp hm.2).1
    simpa using hcontains
  have hcard : ((st.products.filter fun p => pids.contains p.id && p.isActive).map
      fun p => p.id).toFinset = pids.toFinset := by
    apply Finset.eq_of_subset_of_card_le
    · intro x hx
      rw [List.mem_toFinset] at hx ⊢
      exact hids_sub x hx
    · rw [List.toFinset_card_of_nodup hpids, List.toFinset_card_of_nodup hfN,
        List.length_map]
      exact le_of_eq hlen.symm
  have hpidmem : pid ∈ (st.products.filter fun p => pids.contains p.id && p.isActive).map
      fun p => p.id := by
    rw [← List.mem_toFinset, hcard, List.mem_toFinset]
    exact hpid
  obtain ⟨f, hfm, hfid⟩ := List.mem_map.mp hpidmem
  exact ⟨f, hfm, hfid⟩

/-- If some requested id has no matching active product, the filtered fetch is
strictly shorter than the requested id list. -/
theorem fetched_short (st : Store) (pids : List Nat) (bad : Nat)
    (hN : (st.products.map fun p => p.id).Nodup)
    (hpids : pids.Nodup) (hbad : bad ∈ pids)
    (hmiss : ∀ p ∈ st.products, ¬(p.id = bad ∧ p.isActive = true)) :
    (st.products.filter fun p => pids.contains p.id && p.isActive).length < pids.length := by
  have hsub : List.Sublist (st.products.filter fun p => pids.contains p.id && p.isActive)
      st.products :=
    List.filter_sublist _
  have hfN : ((st.products.filter fun p => pids.contains p.id && p.isActive).map
      fun p => p.id).Nodup :=
    List.Nodup.sublist (hsub.map _) hN
  have hids_sub : ∀ x ∈ (st.products.filter fun p => pids.contains p.id && p.isActive).map
      (fun p => p.id), x ∈ pids.toFinset.erase bad := by
    intro x hx
    obtain ⟨f, hfmem, rfl⟩ := List.mem_map.mp hx
    have hm := List.mem_filter.mp hfmem
    have hok := (Bool.and_eq_true _ _).mp hm.2
    refine Finset.mem_erase.mpr ⟨?_, List.mem_toFinset.mpr (by simpa using hok.1)⟩
    intro hfb
    exact hmiss f hm.1 ⟨hfb, hok.2⟩
  have hcardle : ((st.products.filter fun p => pids.contains p.id && p.isActive).map
      fun p => p.id).toFinset.card ≤ (pids.toFinset.erase bad).card := by
    apply Finset.card_le_card
    intro x hx
    exact hids_sub x (List.mem_toFinset.mp hx)
  rw [List.toFinset_card_of_nodup hfN, List.length_map] at hcardle
  rw [Finset.card_erase_of_mem (List.mem_toFinset.mpr hbad),
    List.toFinset_card_of_nodup hpids] at hcardle
  have hpos : 0 < pids.length := List.length_pos_of_mem hbad
  omega

/-! ### Helper lemmas on the stock check -/

theorem checkStock_deficit (products : List Product) (agg : List (Nat × Nat))
    (hlook : ∀ e ∈ agg, (lookupProduct products e.1).isSome = true)
    (hdef : ∃ e ∈ agg, ∃ p, lookupProduct products e.1 = some p ∧ p.stock < (e.2 : Int)) :
    ∃ e ∈ agg, ∃ p, lookupProduct products e.1 = some p ∧ p.stock < (e.2 : Int) ∧
      checkStock products agg = .error (.forbidden (insufficientStockMsg p.name)) := by
  induction agg with
  | nil => simp at hdef
  | cons hd tl ih =>
    obtain ⟨pid, q⟩ := hd
    obtain ⟨phd, hphd⟩ := Option.isSome_iff_exists.mp (hlook (pid, q) (by simp))
    by_cases hs : phd.stock < (q : Int)
    · exact ⟨(pid, q), by simp, phd, hphd, hs, by simp [checkStock, hphd, hs]⟩
    · obtain ⟨e, he, p, hp, hps⟩ := hdef
      have hetl : e ∈ tl := by
        rcases List.mem_cons.mp he with heq | htl
        · subst heq
          rw [hphd] at hp
          cases hp
          exact absurd hps hs
        · exact htl
      obtain ⟨e', he', p', hp', hps', hcs⟩ :=
        ih (fun x hx => hlook x (List.mem_cons_of_mem _ hx)) ⟨e, hetl, p, hp, hps⟩
      exact ⟨e', List.mem_cons_of_mem _ he', p', hp', hps',
        by simp [checkStock, hphd, hs, hcs]⟩

theorem lookupProduct_isSome_of_exists (products : List Product) (pid : Nat)
    (h : ∃ f ∈ products, f.id = pid) :
    (lookupProduct products pid).isSome = true := by
  obtain ⟨f, hf, hfid⟩ := h
  unfold lookupProduct
  rw [List.find?_isSome]
  exact ⟨f, hf, by simpa using hfid⟩

/-- C7: for every checkout call whose caller's role is not the customer role,
the operation fails with `Forbidden` before any store access: the result is
the same error for every store, and the store is returned unchanged. -/
theorem create_forbidden_for_non_customer (st : Store) (cid : Nat)
    (role : Role) (dto : CreateOrderDto) (tr : Option Transport)
    (h : role ≠ Role.CUSTOMER) :
    create st cid role dto tr = (st, .error (.forbidden "Customer role required")) := by
  simp [create, h]

theorem create_forbidden_for_non_customer_witness :
    create store1 10 Role.SELLER dto1 none =
      (store1, .error (.forbidden "Customer role required")) :=
  create_forbidden_for_non_customer store1 10 Role.SELLER dto1 none (by decide)

/-- C9: `updateStatus` lets a seller owning at least one line item set the
order's status to any requested enum value, whatever the current status is
(no monotonic-ordering validation), while a seller owning no item in the
order is rejected with `Forbidden`. -/
theorem updateStatus_unvalidated_transitions (st : Store) (oid sid : Nat)
    (order : OrderRec)
    (hfind : (st.orders.find? fun o => o.id = oid) = some order) :
    ((order.items.any fun it => it.product.sellerId = sid) = true →
      ∀ s : OrderStatus,
        updateStatus st oid sid Role.SELLER s =
          ({ st with orders := st.orders.map fun o =>
               if o.id = oid then { o with status := s } else o },
           .ok (serializeOrder { order with status := s }))) ∧
    ((order.items.any fun it => it.product.sellerId = sid) = false →
      ∀ s : OrderStatus,
        updateStatus st oid sid Role.SELLER s =
          (st, .error (.forbidden "You are not allowed to update this order"))) := by
  constructor <;> intro hown s <;> simp [updateStatus, hfind, hown]

theorem updateStatus_unvalidated_transitions_witness :
    ((updateStatus storeO 7 1 Role.SELLER OrderStatus.DELIVERED).1.orders.map
        fun o => o.status) = [OrderStatus.DELIVERED] ∧
    ((updateStatus { storeO with orders := [{ ordX with status := .DELIVERED }] }
        7 1 Role.SELLER OrderStatus.PENDING).1.orders.map
        fun o => o.status) = [OrderStatus.PENDING] ∧
    updateStatus storeO 7 2 Role.SELLER OrderStatus.DELIVERED =
      (storeO, .error (.forbidden "You are not allowed to update this order")) := by
  have h1 := updateStatus_unvalidated_transitions storeO 7 1 ordX rfl
  have h2 := updateStatus_unvalidated_transitions
    { storeO with orders := [{ ordX with status := .DELIVERED }] } 7 1
    { ordX with status := .DELIVERED } rfl
  have h3 := updateStatus_unvalidated_transitions storeO 7 2 ordX rfl
  refine ⟨?_, ?_, h3.2 (by decide) OrderStatus.DELIVERED⟩
  · rw [h1.1 (by decide) OrderStatus.DELIVERED]; decide
  · rw [h2.1 (by decide) OrderStatus.PENDING]; decide

/-- C4 (amended): once the checkout transaction has committed, a failed
notification dispatch does not roll the order back — the returned store is
the committed one in every case — but the failure is not swallowed: `create`
then returns the dispatch error instead of the created order.  Only with an
unconfigured transporter (where `send` just logs) is dispatch infallible and
the order always returned. -/
theorem create_email_failure_behavior (st : Store) (cid : Nat)
    (dto : CreateOrderDto) (tr : Option Transport) (st' : Store) (order : OrderRec)
    (hTxn : createTxn st cid dto = .ok (st', order)) :
    (create st cid Role.CUSTOMER dto tr).1 = st' ∧
    (dispatchAll tr (buildOrderSummary order) = false →
      (create st cid Role.CUSTOMER dto tr).2 = .error .emailDispatchFailed) ∧
    (tr = none →
      (create st cid Role.CUSTOMER dto tr).2 = .ok (serializeOrder order)) := by
  have hc : create st cid Role.CUSTOMER dto tr =
      (if dispatchAll tr (buildOrderSummary order) then (st', .ok (serializeOrder order))
       else (st', .error .emailDispatchFailed)) := by
    simp [create, hTxn]
  refine ⟨?_, ?_, ?_⟩
  · rw [hc]; cases hd : dispatchAll tr (buildOrderSummary order) <;> simp
  · intro hd; rw [hc, hd]; simp
  · intro hnone; subst hnone
    have hall : dispatchAll none (buildOrderSummary order) = true := by
      simp [dispatchAll, sendMail, List.all_eq_true]
    rw [hc, hall]; simp

theorem create_email_failure_behavior_witness :
    (create store1 10 Role.CUSTOMER dto1 (some fun _ => false)).1 = store1c ∧
    (create store1 10 Role.CUSTOMER dto1 (some fun _ => false)).2 =
      .error .emailDispatchFailed := by
  have h := create_email_failure_behavior store1 10 dto1 (some fun _ => false)
    store1c ord1 rfl
  exact ⟨h.1, h.2.1 rfl⟩

/-- C4 (counterexample to the claim as stated): with a configured transporter
whose `sendMail` rejects, the checkout response is an error — the caller does
not receive the created order, refuting "never escalates to a user-visible
checkout failure" — even though the order row and the stock decrement are
durably committed in the returned store. -/
theorem create_email_failure_counterexample :
    (create store1 10 Role.CUSTOMER dto1 (some fun _ => false)).2 =
        .error .emailDispatchFailed ∧
    ((create store1 10 Role.CUSTOMER dto1 (some fun _ => false)).1.orders.map
        fun o => o.id) = [1] ∧
    ((create store1 10 Role.CUSTOMER dto1 (some fun _ => false)).1.products.map
        fun p => p.stock) = [48, 5, 3] :=
  ⟨rfl, by decide, by decide⟩

/-! ### Branch characterizations of `create` -/

theorem create_of_phase_error (st : Store) (cid : Nat) (dto : CreateOrderDto)
    (tr : Option Transport) (e : Err)
    (hph : stockCheckPhase st dto.items = .error e) :
    create st cid Role.CUSTOMER dto tr = (st, .error e) := by
  simp [create, createTxn, hph]

theorem create_of_phase_ok (st : Store) (cid : Nat) (dto : CreateOrderDto)
    (tr : Option Transport) (products : List Product)
    (hph : stockCheckPhase st dto.items = .ok products) :
    (create st cid Role.CUSTOMER dto tr).1 =
      { st with
        products := applyStockUpdates products (aggregateItems dto.items) st.products
        orders := st.orders ++ [committedOrder st cid dto products]
        nextOrderId := st.nextOrderId + 1
        nextItemId := st.nextItemId + dto.items.length } := by
  simp only [create, createTxn, hph]
  rw [if_neg (by simp)]
  cases hd : dispatchAll tr (buildOrderSummary (committedOrder st cid dto products)) <;>
    simp [hd]

theorem phase_ok_of_create_isOk (st : Store) (cid : Nat) (dto : CreateOrderDto)
    (tr : Option Transport)
    (h : ((create st cid Role.CUSTOMER dto tr).2).isOk = true) :
    ∃ products, stockCheckPhase st dto.items = .ok products := by
  cases hph : stockCheckPhase st dto.items with
  | ok products => exact ⟨products, rfl⟩
  | error e =>
    rw [create_of_phase_error st cid dto tr e hph] at h
    simp [Except.isOk, Except.toBool] at h

/-- Once the phase succeeded, every product mentioned by an aggregated entry
can be looked up in the fetched list, and (under unique store ids) resolves to
the store's own row. -/
theorem lookup_fetched_eq_store (st : Store) (items : List OrderItemDto)
    (products : List Product) (p : Product)
    (hN : (st.products.map fun p => p.id).Nodup)
    (hph : stockCheckPhase st items = .ok products)
    (hp : p ∈ st.products)
    (hpid : p.id ∈ (aggregateItems items).map fun e => e.1) :
    lookupProduct products p.id = some p := by
  obtain ⟨hprod, hlen, _⟩ := stockCheckPhase_ok st items products hph
  have hcov := fetched_covers st ((aggregateItems items).map fun e => e.1) hN
    (aggKeys_nodup items) (by rw [← hprod]; exact hlen) p.id hpid
  obtain ⟨f, hf, hfid⟩ := hcov
  -- the `find?` is some because a matching product exists
  have hsome : (lookupProduct products p.id).isSome = true := by
    apply lookupProduct_isSome_of_exists
    exact ⟨f, by rw [hprod]; exact hf, hfid⟩
  obtain ⟨g, hg⟩ := Option.isSome_iff_exists.mp hsome
  have hgmem : g ∈ products := List.mem_of_find?_eq_some hg
  have hgid : g.id = p.id := by simpa using List.find?_some hg
  have hgstore : g ∈ st.products := by
    rw [hprod] at hgmem
    exact (List.mem_filter.mp hgmem).1
  have := List.inj_on_of_nodup_map hN hgstore hp hgid
  rw [hg, this]

/-- C1: after a successful checkout, every product referenced by the order
(i.e. with an aggregated entry `(p.id, q)`) appears in the resulting store
with stock `s - q` and active flag `(s - q > 0)`, where `s` is its stock
before the call. -/
theorem create_decrements_stock_and_active (st : Store) (cid : Nat)
    (dto : CreateOrderDto) (tr : Option Transport)
    (hN : (st.products.map fun p => p.id).Nodup)
    (hok : ((create st cid Role.CUSTOMER dto tr).2).isOk = true) :
    ∀ p ∈ st.products, ∀ q : Nat, (p.id, q) ∈ aggregateItems dto.items →
      { p with stock := p.stock - (q : Int),
               isActive := decide (p.stock - (q : Int) > 0) } ∈
        (create st cid Role.CUSTOMER dto tr).1.products := by
  intro p hp q hmem
  obtain ⟨products, hph⟩ := phase_ok_of_create_isOk st cid dto tr hok
  rw [create_of_phase_ok st cid dto tr products hph]
  show _ ∈ applyStockUpdates products (aggregateItems dto.items) st.products
  have hfind : ((aggregateItems dto.items).find? fun e => e.1 = p.id) = some (p.id, q) :=
    find?_agg_of_mem _ p.id q (aggKeys_nodup dto.items) hmem
  have hlook : lookupProduct products p.id = some p :=
    lookup_fetched_eq_store st dto.items products p hN hph hp
      (List.mem_map.mpr ⟨(p.id, q), hmem, rfl⟩)
  unfold applyStockUpdates
  refine List.mem_map.mpr ⟨p, hp, ?_⟩
  rw [hfind, hlook]

theorem create_decrements_stock_and_active_witness :
    { teaA with stock := 48, isActive := true } ∈
      (create store1 10 Role.CUSTOMER dto1 none).1.products := by
  have h := create_decrements_stock_and_active store1 10 dto1 none (by decide) rfl
    teaA (by decide) 2 (by decide)
  have heq : { teaA with stock := (48 : Int), isActive := true } =
      { teaA with stock := teaA.stock - ((2 : Nat) : Int),
                  isActive := decide (teaA.stock - ((2 : Nat) : Int) > 0) } := by decide
  rw [heq]
  exact h

/-- C6: referencing a nonexistent-or-inactive product id fails with
`NotFound` and leaves the store (orders and stock) unchanged. -/
theorem create_not_found_on_missing_product (st : Store) (cid : Nat)
    (dto : CreateOrderDto) (tr : Option Transport)
    (hN : (st.products.map fun p => p.id).Nodup)
    (hmiss : ∃ it ∈ dto.items, ∀ p ∈ st.products, ¬(p.id = it.productId ∧ p.isActive = true)) :
    create st cid Role.CUSTOMER dto tr =
      (st, .error (.notFound "One or more products were not found or inactive")) := by
  obtain ⟨it, hit, hnone⟩ := hmiss
  have hbad : it.productId ∈ (aggregateItems dto.items).map fun e => e.1 :=
    (mem_aggKeys_iff dto.items it.productId).mpr
      (List.mem_map.mpr ⟨it, hit, rfl⟩)
  have hshort := fetched_short st ((aggregateItems dto.items).map fun e => e.1)
    it.productId hN (aggKeys_nodup dto.items) hbad hnone
  have hph : stockCheckPhase st dto.items =
      .error (.notFound "One or more products were not found or inactive") := by
    simp only [stockCheckPhase]
    rw [if_pos (Nat.ne_of_lt hshort)]
  exact create_of_phase_error st cid dto tr _ hph

theorem create_not_found_on_missing_product_witness :
    create store1 10 Role.CUSTOMER dtoMissing none =
      (store1, .error (.notFound "One or more products were not found or inactive")) := by
  refine create_not_found_on_missing_product store1 10 dtoMissing none (by decide) ?_
  exact ⟨⟨999, 1⟩, by decide, by decide⟩

theorem lookup_filter_eq_store (st : Store) (pids : List Nat) (p : Product)
    (hN : (st.products.map fun x => x.id).Nodup)
    (hp : p ∈ st.products) (hpid : p.id ∈ pids) (hact : p.isActive = true) :
    lookupProduct (st.products.filter fun x => pids.contains x.id && x.isActive)
      p.id = some p := by
  have hpf : p ∈ st.products.filter fun x => pids.contains x.id && x.isActive :=
    List.mem_filter.mpr ⟨hp, by simp [hpid, hact]⟩
  have hsome := lookupProduct_isSome_of_exists _ p.id ⟨p, hpf, rfl⟩
  obtain ⟨g, hg⟩ := Option.isSome_iff_exists.mp hsome
  have hgmem : g ∈ st.products :=
    (List.mem_filter.mp (List.mem_of_find?_eq_some hg)).1
  have hgid : g.id = p.id := by simpa using List.find?_some hg
  rw [hg, List.inj_on_of_nodup_map hN hgmem hp hgid]

theorem fetched_length_eq (st : Store) (pids : List Nat)
    (hN : (st.products.map fun p => p.id).Nodup)
    (hpids : pids.Nodup)
    (hcov : ∀ pid ∈ pids, ∃ p ∈ st.products, p.id = pid ∧ p.isActive = true) :
    (st.products.filter fun p => pids.contains p.id && p.isActive).length = pids.length := by
  have hsub : List.Sublist (st.products.filter fun p => pids.contains p.id && p.isActive)
      st.products :=
    List.filter_sublist _
  have hfN : ((st.products.filter fun p => pids.contains p.id && p.isActive).map
      fun p => p.id).Nodup :=
    List.Nodup.sublist (hsub.map _) hN
  have heq : ((st.products.filter fun p => pids.contains p.id && p.isActive).map
      fun p => p.id).toFinset = pids.toFinset := by
    apply Finset.Subset.antisymm
    · intro x hx
      rw [List.mem_toFinset] at hx ⊢
      obtain ⟨f, hfmem, rfl⟩ := List.mem_map.mp hx
      have hm := List.mem_filter.mp hfmem
      have hcontains := ((Bool.and_eq_true _ _).mp hm.2).1
      simpa using hcontains
    · intro x hx
      rw [List.mem_toFinset] at hx ⊢
      obtain ⟨p, hp, hpid, hact⟩ := hcov x hx
      refine List.mem_map.mpr ⟨p, ?_, hpid⟩
      exact List.mem_filter.mpr ⟨hp, by simp [hpid ▸ hx, hact]⟩
  have := congrArg Finset.card heq
  rwa [List.toFinset_card_of_nodup hpids, List.toFinset_card_of_nodup hfN,
    List.length_map] at this

/-- C3: if every referenced product exists and is active but some product's
stock is below its aggregated requested quantity, the checkout fails with the
`Insufficient stock` error naming an offending product, and the store —
orders and stock alike — is returned unchanged (all-or-nothing). -/
theorem create_insufficient_stock (st : Store) (cid : Nat) (dto : CreateOrderDto)
    (tr : Option Transport)
    (hN : (st.products.map fun p => p.id).Nodup)
    (hfound : ∀ it ∈ dto.items, ∃ p ∈ st.products, p.id = it.productId ∧ p.isActive = true)
    (hdef : ∃ p ∈ st.products, ∃ q : Nat,
        (p.id, q) ∈ aggregateItems dto.items ∧ p.stock < (q : Int)) :
    ∃ p ∈ st.products, ∃ q : Nat,
      (p.id, q) ∈ aggregateItems dto.items ∧ p.stock < (q : Int) ∧
      create st cid Role.CUSTOMER dto tr =
        (st, .error (.forbidden (insufficientStockMsg p.name))) := by
  have hcov : ∀ pid ∈ (aggregateItems dto.items).map (fun e => e.1),
      ∃ p ∈ st.products, p.id = pid ∧ p.isActive = true := by
    intro pid hpid
    obtain ⟨it, hit, rfl⟩ :=
      List.mem_map.mp ((mem_aggKeys_iff dto.items pid).mp hpid)
    exact hfound it hit
  have hlen := fetched_length_eq st ((aggregateItems dto.items).map fun e => e.1)
    hN (aggKeys_nodup dto.items) hcov
  have hlookAll : ∀ e ∈ aggregateItems dto.items,
      (lookupProduct (st.products.filter fun p =>
        ((aggregateItems dto.items).map fun e => e.1).contains p.id && p.isActive)
        e.1).isSome = true := by
    intro e he
    obtain ⟨p, hp, hpid, hact⟩ := hcov e.1 (List.mem_map.mpr ⟨e, he, rfl⟩)
    have hmemk : p.id ∈ (aggregateItems dto.items).map fun e => e.1 :=
      List.mem_map.mpr ⟨e, he, hpid.symm⟩
    apply lookupProduct_isSome_of_exists
    refine ⟨p, List.mem_filter.mpr ⟨hp, by simp [hmemk, hact]⟩, hpid⟩
  have hdef' : ∃ e ∈ aggregateItems dto.items, ∃ p,
      lookupProduct (st.products.filter fun x =>
        ((aggregateItems dto.items).map fun e => e.1).contains x.id && x.isActive)
        e.1 = some p ∧ p.stock < (e.2 : Int) := by
    obtain ⟨p, hp, q, hmem, hs⟩ := hdef
    have hpid : p.id ∈ (aggregateItems dto.items).map fun e => e.1 :=
      List.mem_map.mpr ⟨(p.id, q), hmem, rfl⟩
    have hact : p.isActive = true := by
      obtain ⟨p2, hp2, hpid2, hact2⟩ := hcov p.id hpid
      rw [List.inj_on_of_nodup_map hN hp hp2 hpid2.symm]
      exact hact2
    exact ⟨(p.id, q), hmem, p,
      lookup_filter_eq_store st _ p hN hp hpid hact, hs⟩
  obtain ⟨e, he, p, hp, hs, hcs⟩ := checkStock_deficit _ _ hlookAll hdef'
  have hpid : p.id = e.1 := by simpa using List.find?_some hp
  have hpstore : p ∈ st.products :=
    (List.mem_filter.mp (List.mem_of_find?_eq_some hp)).1
  have hmem : (p.id, e.2) ∈ aggregateItems dto.items := by
    rw [hpid]
    exact (Prod.mk.eta ▸ he : (e.1, e.2) ∈ aggregateItems dto.items)
  refine ⟨p, hpstore, e.2, hmem, hs, ?_⟩
  apply create_of_phase_error
  simp only [stockCheckPhase]
  rw [if_neg (not_ne_iff.mpr hlen), hcs]

theorem create_insufficient_stock_witness :
    (create store1 10 Role.CUSTOMER dtoSplit none).1 = store1 ∧
    (create store1 10 Role.CUSTOMER dtoSplit none).2 =
      .error (.forbidden (insufficientStockMsg "Black Tea")) := by
  obtain ⟨p, hp, q, hmem, hs, heq⟩ := create_insufficient_stock store1 10 dtoSplit none
    (by decide) (by decide) ⟨teaB, by decide, 6, by decide, by decide⟩
  exact ⟨by rw [heq], rfl⟩

/-- C2: duplicate `productId` lines are summed into one aggregated quantity
per product before the availability check: the aggregated map records the sum
of all matching line quantities, the availability phase depends on the input
only through that map, and in particular two lines `(p,2),(p,3)` and the
single line `(p,5)` produce identical availability outcomes on every store. -/
theorem create_aggregates_duplicate_lines :
    (∀ (items : List OrderItemDto) (pid : Nat),
        pid ∈ items.map (fun it => it.productId) →
          aggLookup (aggregateItems items) pid = some (qtySum items pid)) ∧
    (∀ (st : Store) (items1 items2 : List OrderItemDto),
        aggregateItems items1 = aggregateItems items2 →
          stockCheckPhase st items1 = stockCheckPhase st items2) ∧
    (∀ (st : Store) (p : Nat) (addr : String),
        stockCheckPhase st (CreateOrderDto.mk addr [⟨p, 2⟩, ⟨p, 3⟩]).items =
          stockCheckPhase st (CreateOrderDto.mk addr [⟨p, 5⟩]).items) := by
  have hsum : ∀ (items : List OrderItemDto) (pid : Nat),
      pid ∈ items.map (fun it => it.productId) →
        aggLookup (aggregateItems items) pid = some (qtySum items pid) := by
    intro items pid hmem
    obtain ⟨it, hit, rfl⟩ := List.mem_map.mp hmem
    rw [aggregateItems_lookup,
      if_pos (List.any_eq_true.mpr ⟨it, hit, by simp⟩)]
  have hcongr : ∀ (st : Store) (items1 items2 : List OrderItemDto),
      aggregateItems items1 = aggregateItems items2 →
        stockCheckPhase st items1 = stockCheckPhase st items2 := by
    intro st items1 items2 h
    simp only [stockCheckPhase, h]
  refine ⟨hsum, hcongr, fun st p addr => hcongr st _ _ ?_⟩
  simp [aggregateItems, aggStep]

theorem create_aggregates_duplicate_lines_witness :
    aggLookup (aggregateItems [⟨101, 2⟩, ⟨101, 3⟩]) 101 = some 5 ∧
    stockCheckPhase store1 [OrderItemDto.mk 102 2, OrderItemDto.mk 102 3] =
      stockCheckPhase store1 [OrderItemDto.mk 102 5] := by
  have h := create_aggregates_duplicate_lines
  refine ⟨?_, h.2.2 store1 102 "12 Tea Street"⟩
  rw [h.1 [⟨101, 2⟩, ⟨101, 3⟩] 101 (by decide)]
  decide

/-! ### Helper lemmas on line items and the running total -/

theorem foldl_add_map_sum (f : OrderItemDto → Int) (items : List OrderItemDto) :
    ∀ init : Int, items.foldl (fun t it => t + f it) init = init + (items.map f).sum := by
  induction items with
  | nil => intro init; simp
  | cons hd tl ih =>
    intro init
    rw [List.foldl_cons, ih, List.map_cons, List.sum_cons]
    ring

theorem buildItems_map_priceqty (products : List Product) (items : List OrderItemDto) :
    ∀ fid : Nat,
      (buildItems products items fid).map (fun it => it.unitPrice * (it.quantity : Int)) =
        items.map fun it =>
          ((lookupProduct products it.productId).getD defaultProduct).price
            * (it.quantity : Int) := by
  induction items with
  | nil => intro fid; rfl
  | cons hd tl ih => intro fid; simp [buildItems, ih]

theorem orderTotal_eq_sum (products : List Product) (items : List OrderItemDto) (fid : Nat) :
    orderTotal products items =
      ((buildItems products items fid).map fun it => it.unitPrice * (it.quantity : Int)).sum := by
  rw [buildItems_map_priceqty]
  unfold orderTotal
  rw [foldl_add_map_sum]
  simp

theorem buildItems_forall2 (st : Store) (products : List Product) :
    ∀ (items : List OrderItemDto) (fid : Nat),
      (∀ it ∈ items, ∀ p ∈ st.products, p.id = it.productId →
          lookupProduct products it.productId = some p) →
      List.Forall₂ (fun (it : OrderItemRec) (dit : OrderItemDto) =>
          it.quantity = dit.quantity ∧
          ∀ p ∈ st.products, p.id = dit.productId → it.unitPrice = p.price)
        (buildItems products items fid) items := by
  intro items
  induction items with
  | nil => intro fid _; exact List.Forall₂.nil
  | cons hd tl ih =>
    intro fid hcov
    refine List.Forall₂.cons ⟨rfl, ?_⟩
      (ih (fid + 1) fun it hit => hcov it (List.mem_cons_of_mem _ hit))
    intro p hp hpid
    have hl := hcov hd (List.mem_cons_self _ _) p hp hpid
    show (((lookupProduct products hd.productId).getD defaultProduct)).price = p.price
    rw [hl]
    rfl

theorem decimalVal_sum_items (l : List OrderItemRec) :
    decimalVal ((l.map fun it => it.unitPrice * (it.quantity : Int)).sum) =
      (l.map fun it => decimalVal it.unitPrice * (it.quantity : ℚ)).sum := by
  induction l with
  | nil => simp [decimalVal]
  | cons hd tl ih =>
    simp only [List.map_cons, List.sum_cons, decimalVal] at ih ⊢
    rw [Int.cast_add, add_div, ih]
    push_cast
    ring

/-- C5: on a committed checkout the created order has one line item per
original (non-aggregated) input item, each line freezes the store product's
price at call time as its `unitPrice`, and `totalAmount` is the exact
fixed-point decimal sum of `unitPrice * quantity` over the line items — both
as an identity on hundredths and as an identity on exact rational values, so
no floating-point rounding is involved. -/
theorem create_frozen_pricing (st : Store) (cid : Nat) (dto : CreateOrderDto)
    (tr : Option Transport) (products : List Product)
    (hN : (st.products.map fun p => p.id).Nodup)
    (hph : stockCheckPhase st dto.items = .ok products) :
    (create st cid Role.CUSTOMER dto tr).1.orders =
        st.orders ++ [committedOrder st cid dto products] ∧
    List.Forall₂ (fun (it : OrderItemRec) (dit : OrderItemDto) =>
        it.quantity = dit.quantity ∧
        ∀ p ∈ st.products, p.id = dit.productId → it.unitPrice = p.price)
      (committedOrder st cid dto products).items dto.items ∧
    (committedOrder st cid dto products).totalAmount =
      ((committedOrder st cid dto products).items.map
        fun it => it.unitPrice * (it.quantity : Int)).sum ∧
    decimalVal (committedOrder st cid dto products).totalAmount =
      ((committedOrder st cid dto products).items.map
        fun it => decimalVal it.unitPrice * (it.quantity : ℚ)).sum := by
  have hcov : ∀ it ∈ dto.items, ∀ p ∈ st.products, p.id = it.productId →
      lookupProduct products it.productId = some p := by
    intro it hit p hp hpid
    have hkey : p.id ∈ (aggregateItems dto.items).map fun e => e.1 := by
      rw [hpid]
      exact (mem_aggKeys_iff dto.items it.productId).mpr
        (List.mem_map.mpr ⟨it, hit, rfl⟩)
    have := lookup_fetched_eq_store st dto.items products p hN hph hp hkey
    rwa [hpid] at this
  have h3 : (committedOrder st cid dto products).totalAmount =
      ((committedOrder st cid dto products).items.map
        fun it => it.unitPrice * (it.quantity : Int)).sum :=
    orderTotal_eq_sum products dto.items st.nextItemId
  refine ⟨?_, ?_, h3, ?_⟩
  · rw [create_of_phase_ok st cid dto tr products hph]
  · exact buildItems_forall2 st products dto.items st.nextItemId hcov
  · rw [h3, decimalVal_sum_items]

theorem create_frozen_pricing_witness :
    (create store1 10 Role.CUSTOMER dto2 none).1.orders =
      store1.orders ++ [committedOrder store1 10 dto2 [teaA, teaC]] ∧
    (committedOrder store1 10 dto2 [teaA, teaC]).totalAmount = 4500 := by
  have h := create_frozen_pricing store1 10 dto2 none [teaA, teaC] (by decide) rfl
  refine ⟨h.1, ?_⟩
  rw [h.2.2.1]
  decide

/-! ### Helper lemmas on the seller grouping -/

theorem sellerGroupStep_keys (acc : List (String × String × List OrderItemSummary))
    (it : SummaryItem) :
    (sellerGroupStep acc it).map (fun g => g.1) =
      if (acc.any fun g => g.1 = it.sellerEmail) = true then acc.map fun g => g.1
      else (acc.map fun g => g.1) ++ [it.sellerEmail] := by
  unfold sellerGroupStep
  by_cases hany : (acc.any fun g => g.1 = it.sellerEmail) = true
  · rw [if_pos hany, if_pos hany, List.map_map]
    refine List.map_congr_left fun g _ => ?_
    by_cases hg : g.1 = it.sellerEmail <;> simp [hg]
  · rw [if_neg hany, if_neg hany, List.map_append]
    rfl

theorem sellerGroupStep_keys_nodup (acc : List (String × String × List OrderItemSummary))
    (it : SummaryItem) (hN : (acc.map fun g => g.1).Nodup) :
    ((sellerGroupStep acc it).map fun g => g.1).Nodup := by
  rw [sellerGroupStep_keys]
  by_cases hany : (acc.any fun g => g.1 = it.sellerEmail) = true
  · rwa [if_pos hany]
  · rw [if_neg hany, List.nodup_append]
    refine ⟨hN, List.nodup_singleton _, ?_⟩
    intro a ha hb
    rw [List.mem_singleton] at hb
    subst hb
    have hfalse := (Bool.not_eq_true _).mp hany
    rw [List.any_eq_false] at hfalse
    obtain ⟨g, hg, heq⟩ := List.mem_map.mp ha
    exact (hfalse g hg) (by simp [heq])

theorem sellerGroupStep_keys_mem (acc : List (String × String × List OrderItemSummary))
    (it : SummaryItem) (pre : List SummaryItem)
    (hkeys : ∀ e, e ∈ acc.map (fun g => g.1) ↔ e ∈ pre.map fun x => x.sellerEmail) :
    ∀ e, e ∈ (sellerGroupStep acc it).map (fun g => g.1) ↔
      e ∈ (pre ++ [it]).map fun x => x.sellerEmail := by
  intro e
  rw [sellerGroupStep_keys, List.map_append]
  by_cases hany : (acc.any fun g => g.1 = it.sellerEmail) = true
  · rw [if_pos hany]
    have hin : it.sellerEmail ∈ pre.map fun x => x.sellerEmail := by
      rw [← hkeys]
      obtain ⟨g, hg, heq⟩ := List.any_eq_true.mp hany
      exact List.mem_map.mpr ⟨g, hg, by simpa using heq⟩
    constructor
    · intro h
      exact List.mem_append_left _ ((hkeys e).mp h)
    · intro h
      rcases List.mem_append.mp h with h1 | h2
      · exact (hkeys e).mpr h1
      · rw [hkeys]
        have : e = it.sellerEmail := by simpa using h2
        rw [this]
        exact hin
  · rw [if_neg hany]
    constructor
    · intro h
      rcases List.mem_append.mp h with h1 | h2
      · exact List.mem_append_left _ ((hkeys e).mp h1)
      · apply List.mem_append_right
        simpa using h2
    · intro h
      rcases List.mem_append.mp h with h1 | h2
      · exact List.mem_append_left _ ((hkeys e).mpr h1)
      · apply List.mem_append_right
        simpa using h2

theorem sellerGroupStep_content (acc : List (String × String × List OrderItemSummary))
    (it : SummaryItem) (pre : List SummaryItem)
    (hkeys : ∀ e, e ∈ acc.map (fun g => g.1) ↔ e ∈ pre.map fun x => x.sellerEmail)
    (hcontent : ∀ g ∈ acc,
        g.2.2 = (pre.filter fun x => x.sellerEmail = g.1).map fun x => x.summary) :
    ∀ g ∈ sellerGroupStep acc it,
      g.2.2 = ((pre ++ [it]).filter fun x => x.sellerEmail = g.1).map fun x => x.summary := by
  intro g hg
  rw [List.filter_append, List.map_append]
  unfold sellerGroupStep at hg
  by_cases hany : (acc.any fun x => x.1 = it.sellerEmail) = true
  · rw [if_pos hany] at hg
    obtain ⟨g0, hg0, heq⟩ := List.mem_map.mp hg
    by_cases hkey : g0.1 = it.sellerEmail
    · rw [if_pos hkey] at heq
      rw [← heq]
      have hfilter : ([it].filter fun x => x.sellerEmail = g0.1) = [it] := by
        simp [List.filter, hkey.symm]
      show g0.2.2 ++ [it.summary] = _
      rw [hfilter, hcontent g0 hg0]
      rfl
    · rw [if_neg hkey] at heq
      rw [← heq]
      have hfilter : ([it].filter fun x => x.sellerEmail = g0.1) = [] := by
        have hne : ¬ it.sellerEmail = g0.1 := fun h => hkey h.symm
        simp [List.filter, hne]
      rw [hfilter, hcontent g0 hg0]
      simp
  · rw [if_neg hany] at hg
    have hnotin : ¬ it.sellerEmail ∈ pre.map fun x => x.sellerEmail := by
      rw [← hkeys]
      intro hmem
      have hfalse := (Bool.not_eq_true _).mp hany
      rw [List.any_eq_false] at hfalse
      obtain ⟨g1, hg1, heq1⟩ := List.mem_map.mp hmem
      exact (hfalse g1 hg1) (by simp [heq1])
    rcases List.mem_append.mp hg with hacc | hnew
    · have hne : ¬ it.sellerEmail = g.1 := by
        intro heq
        have hfalse := (Bool.not_eq_true _).mp hany
        rw [List.any_eq_false] at hfalse
        exact (hfalse g hacc) (by simp [heq])
      have hfilter : ([it].filter fun x => x.sellerEmail = g.1) = [] := by
        simp [List.filter, hne]
      rw [hfilter, hcontent g hacc]
      simp
    · have hgeq : g = (it.sellerEmail, it.sellerName, [it.summary]) := by
        simpa using hnew
      subst hgeq
      have hfilterpre : (pre.filter fun x => x.sellerEmail = it.sellerEmail) = [] := by
        rw [List.filter_eq_nil_iff]
        intro x hx
        simp only [decide_eq_true_eq]
        intro hcontra
        exact hnotin (List.mem_map.mpr ⟨x, hx, hcontra⟩)
      have hfilterit : ([it].filter fun x => x.sellerEmail = it.sellerEmail) = [it] := by
        simp [List.filter]
      show [it.summary] = _
      rw [hfilterpre, hfilterit]
      rfl

theorem sellerGroups_invariant (items : List SummaryItem) :
    ∀ (acc : List (String × String × List OrderItemSummary)) (pre : List SummaryItem),
      ((acc.map fun g => g.1).Nodup) →
      (∀ e, e ∈ acc.map (fun g => g.1) ↔ e ∈ pre.map fun it => it.sellerEmail) →
      (∀ g ∈ acc,
          g.2.2 = (pre.filter fun it => it.sellerEmail = g.1).map fun it => it.summary) →
      (((items.foldl sellerGroupStep acc).map fun g => g.1).Nodup) ∧
      (∀ e, e ∈ (items.foldl sellerGroupStep acc).map (fun g => g.1) ↔
          e ∈ (pre ++ items).map fun it => it.sellerEmail) ∧
      (∀ g ∈ items.foldl sellerGroupStep acc,
          g.2.2 = ((pre ++ items).filter fun it => it.sellerEmail = g.1).map
            fun it => it.summary) := by
  induction items with
  | nil =>
    intro acc pre hN hkeys hcontent
    simp only [List.foldl_nil, List.append_nil]
    exact ⟨hN, hkeys, hcontent⟩
  | cons hd tl ih =>
    intro acc pre hN hkeys hcontent
    rw [List.foldl_cons]
    have h := ih (sellerGroupStep acc hd) (pre ++ [hd])
      (sellerGroupStep_keys_nodup acc hd hN)
      (sellerGroupStep_keys_mem acc hd pre hkeys)
      (sellerGroupStep_content acc hd pre hkeys hcontent)
    simpa [List.append_assoc] using h

theorem sellerGroups_spec (items : List SummaryItem) :
    ((sellerGroups items).map fun g => g.1).Nodup ∧
    (∀ e, e ∈ (sellerGroups items).map (fun g => g.1) ↔
        e ∈ items.map fun it => it.sellerEmail) ∧
    (∀ g ∈ sellerGroups items,
        g.2.2 = (items.filter fun it => it.sellerEmail = g.1).map fun it => it.summary) := by
  have h := sellerGroups_invariant items [] [] (by simp) (by simp) (by simp)
  simpa [sellerGroups] using h

/-- C8: for every order summary, the seller notification fan-out produces
exactly one mail per distinct seller email among the line items (no
duplicates, and every represented seller gets one), each such mail lists
exactly that seller's item summaries, and the dispatch performed by checkout
is that mail list plus one confirmation to the customer. -/
theorem seller_notification_fanout (o : OrderSummary) :
    ((sellerNotificationMails o).map fun m => m.toAddr).Nodup ∧
    (∀ e, e ∈ (sellerNotificationMails o).map (fun m => m.toAddr) ↔
        e ∈ o.items.map fun it => it.sellerEmail) ∧
    (∀ m ∈ sellerNotificationMails o,
        m.items = (o.items.filter fun it => it.sellerEmail = m.toAddr).map
          fun it => it.summary) ∧
    (orderConfirmationMail o).toAddr = o.customerEmail ∧
    (∀ tr : Option Transport,
        dispatchAll tr o =
          (orderConfirmationMail o :: sellerNotificationMails o).all (sendMail tr)) := by
  obtain ⟨hN, hkeys, hcontent⟩ := sellerGroups_spec o.items
  have hmap : (sellerNotificationMails o).map (fun m => m.toAddr) =
      (sellerGroups o.items).map fun g => g.1 := by
    unfold sellerNotificationMails
    rw [List.map_map]
    rfl
  refine ⟨?_, ?_, ?_, rfl, fun tr => rfl⟩
  · rw [hmap]; exact hN
  · intro e; rw [hmap]; exact hkeys e
  · intro m hm
    obtain ⟨g, hg, heq⟩ := List.mem_map.mp hm
    rw [← heq]
    exact hcontent g hg

theorem seller_notification_fanout_witness :
    ((sellerNotificationMails (buildOrderSummary ordTwo)).map fun m => m.toAddr) =
      ["seller1@teahaven.local"] ∧
    ((sellerNotificationMails (buildOrderSummary ordTwo)).map fun m =>
        m.items.map fun s => s.name) = [["Green Tea", "Black Tea"]] ∧
    ((sellerNotificationMails (buildOrderSummary ordTwo)).map fun m => m.toAddr).Nodup :=
  ⟨rfl, rfl, (seller_notification_fanout (buildOrderSummary ordTwo)).1⟩

/-- C10: the values exposed for `totalAmount` and each item's `unitPrice` by
`serializeOrder` and by `buildOrderSummary` are exactly the stored fixed-point
decimals passed through the binary64 `Number()` conversion; that conversion is
the identity on a dyadic amount such as 12.50 but differs from the exact
decimal on 0.10, so the externally visible values are floating-point even
though the internal computation is exact decimal. -/
theorem serialization_exposes_float_values :
    (∀ o : OrderRec,
      (serializeOrder o).totalAmount = toNumber o.totalAmount ∧
      (serializeOrder o).items.map (fun it => it.unitPrice) =
        o.items.map (fun it => toNumber it.unitPrice) ∧
      (buildOrderSummary o).totalAmount = toNumber o.totalAmount ∧
      (buildOrderSummary o).items.map (fun it => it.summary.unitPrice) =
        o.items.map fun it => toNumber it.unitPrice) ∧
    toNumber 1250 = decimalVal 1250 ∧
    toNumber 10 ≠ decimalVal 10 := by
  refine ⟨fun o => ⟨rfl, ?_, rfl, ?_⟩, ?_, ?_⟩
  · simp [serializeOrder, List.map_map]
  · simp [buildOrderSummary, List.map_map]
  · have h1 : natLog2 12 = 3 := by decide
    have h2 : halfEvenDiv (1250 * 2 ^ 49) 100 = 7036874417766400 := by decide
    have h3 : Int.toNat 49 = 49 := rfl
    rw [toNumber]
    norm_num [floorLog2, h1, decimalVal]
    rw [h3, h2]
    norm_num
  · have h2 : halfEvenDiv (10 * 2 ^ 56) 100 = 7205759403792794 := by decide
    have h3 : Int.toNat 56 = 56 := rfl
    rw [toNumber]
    norm_num [floorLog2, natClog2, clog2Aux, decimalVal]
    rw [h3, h2]
    norm_num

theorem serialization_exposes_float_values_witness :
    (serializeOrder ord1).totalAmount = toNumber ord1.totalAmount ∧
    toNumber 1250 = decimalVal 1250 :=
  ⟨(serialization_exposes_float_values.1 ord1).1,
   serialization_exposes_float_values.2.1⟩
